import Mathlib

/-!
Shallow embedding of src/Xilinx/Common/Communication.c (no-OS Xilinx
communication driver) and proofs of the specification's claims about it.

The driver talks to memory-mapped SPI and I2C cores through 32-bit register
reads and writes (Xil_In32 / Xil_Out32).  We model a run of each driver
function as a pure computation over an environment that supplies the values
returned by register reads, and we record every register access (and delay)
in an event trace, in program order.  Machine integers are modelled as Nat
with explicit truncation (mod 2^8 for unsigned char stores, 32-bit masks for
u32 bitwise complement) exactly where the C performs them.
-/

namespace NoOS

/-- Registers accessed by Communication.c, identified by the offset names
used in the source (SPI core: SPICR, SPISR, SPIDTR, SPIDRR, SPISSR, SRR;
I2C core: CR, RX_FIFO_PIRQ, TX_FIFO, RX_FIFO, SR). -/
inductive Reg where
  | SPICR | SPISR | SPIDTR | SPIDRR | SPISSR | SRR
  | CR | RX_FIFO_PIRQ | TX_FIFO | RX_FIFO | SR
  deriving DecidableEq, Repr

/-- Observable events of a driver run: a register write Xil_Out32 with the
value written, a register read Xil_In32 with the value obtained, a call to
TIME_DelayMs, and an instrumentation marker recording the value of the
timeout countdown variable at the moment a per-byte status-poll loop is
entered (the do/while at Communication.c:145-149 and the while at line 433). -/
inductive Ev where
  | wr : Reg → Nat → Ev
  | rd : Reg → Nat → Ev
  | delayMs : Nat → Ev
  | pollStart : Nat → Ev
  deriving DecidableEq, Repr

/-- cfgValue |= (1 << MasterTranInh), with MasterTranInh = 8
(transaction-inhibit bit of the SPI control register). -/
def setMTI (x : Nat) : Nat := x ||| (1 <<< 8)

/-- cfgValue &= ~(1 << MasterTranInh) on a u32: the complement of bit 8
in 32 bits is 0xFFFFFEFF. -/
def clearMTI (x : Nat) : Nat := x &&& 0xFFFFFEFF

/-- Behaviour of the SPI peripheral as seen through reads: status is the
value returned by the k-th read of SPISR (counted over the whole call), and
rx is the value returned by the k-th read of the receive data register
SPIDRR. -/
structure SpiEnv where
  status : Nat → Nat
  rx : Nat → Nat

/-- Local state of the SPI_Write / SPI_Read transfer loop
(Communication.c:122-126): transmit and receive counters, how many SPISR
and SPIDRR reads have been consumed from the environment, the timeout
countdown, the local cfgValue, and the caller's buffer (mutated in place). -/
structure SpiSt where
  txCnt : Nat
  rxCnt : Nat
  pollIdx : Nat
  popIdx : Nat
  tmo : Nat
  cfg : Nat
  buf : List Nat
  deriving DecidableEq, Repr

/-- The status poll do { SPIStatus = Xil_In32(SPISR); }
while ((SPIStatus & 0x01) == 1 && timeout--)  (Communication.c:145-149).
Argument p is the index of the next SPISR read, the Nat argument is the
current value of the timeout countdown.  Returns the events (one read per
iteration), the number of reads consumed, and true when a read with bit 0
clear was seen; false means the countdown was exhausted (the post-decrement
wrapped past zero, so C's timeout == -1 test at line 150 fires). -/
def spiPoll (env : SpiEnv) (p : Nat) : Nat → List Ev × Nat × Bool
  | 0 =>
    if env.status p &&& 1 = 1 then ([Ev.rd Reg.SPISR (env.status p)], 1, false)
    else ([Ev.rd Reg.SPISR (env.status p)], 1, true)
  | t+1 =>
    if env.status p &&& 1 = 1 then
      (Ev.rd Reg.SPISR (env.status p) :: (spiPoll env (p+1) t).1,
       (spiPoll env (p+1) t).2.1 + 1, (spiPoll env (p+1) t).2.2)
    else ([Ev.rd Reg.SPISR (env.status p)], 1, true)

/-- The while (txCnt < bytesNumber) transfer loop of SPI_Write
(Communication.c:142-191).  fuel bounds the number of iterations; SPI_Write
passes fuel = bytesNumber, which is exact since txCnt increases by one per
iteration.  Returns false (timeout, C returns -1) or true (loop ran to
completion), the final local state, and the events of the loop body in
order. -/
def spiLoop (env : SpiEnv) (n : Nat) : Nat → SpiSt → Bool × SpiSt × List Ev
  | 0, st => (true, st, [])
  | fuel+1, st =>
    if st.txCnt < n then
      let pr := spiPoll env st.pollIdx st.tmo
      if pr.2.2 = true then
        let st1 : SpiSt :=
          if st.rxCnt < n then
            { st with pollIdx := st.pollIdx + pr.2.1, tmo := 0xFFFF,
                      buf := st.buf.set st.rxCnt (env.rx st.popIdx % 256),
                      rxCnt := st.rxCnt + 1, popIdx := st.popIdx + 1,
                      txCnt := st.txCnt + 1 }
          else
            { st with pollIdx := st.pollIdx + pr.2.1, tmo := 0xFFFF,
                      txCnt := st.txCnt + 1 }
        let evs1 : List Ev :=
          if st.rxCnt < n then [Ev.rd Reg.SPIDRR (env.rx st.popIdx)] else []
        let st2 : SpiSt :=
          if st1.txCnt < n then { st1 with cfg := clearMTI (setMTI st1.cfg) } else st1
        let evs2 : List Ev :=
          if st1.txCnt < n then
            [Ev.wr Reg.SPICR (setMTI st1.cfg),
             Ev.wr Reg.SPIDTR (st1.buf.getD st1.txCnt 0),
             Ev.wr Reg.SPICR (clearMTI (setMTI st1.cfg))]
          else []
        let r := spiLoop env n fuel st2
        (r.1, r.2.1, (Ev.pollStart st.tmo :: pr.1) ++ evs1 ++ evs2 ++ r.2.2)
      else
        (false, { st with pollIdx := st.pollIdx + pr.2.1, cfg := setMTI st.cfg },
         (Ev.pollStart st.tmo :: pr.1) ++
           [Ev.wr Reg.SPICR (setMTI st.cfg), Ev.wr Reg.SRR 0x0A,
            Ev.wr Reg.SPISSR 0xFFFFFFFF, Ev.wr Reg.SPICR (setMTI st.cfg)])
    else (true, st, [])

/-- Result of an SPI transfer call: the (int-valued) return, the final
contents of the caller's buffer, and the trace of register accesses. -/
structure SpiResult where
  ret : Int
  buf : List Nat
  evs : List Ev
  deriving DecidableEq, Repr

/-- Initial loop state of SPI_Write / SPI_Read: counters zero, timeout at
its 0xFFFF ceiling, cfgValue with the transaction-inhibit bit cleared
(line 138), buffer as passed by the caller. -/
def spiSt0 (configValue : Nat) (data : List Nat) : SpiSt :=
  ⟨0, 0, 0, 0, 0xFFFF, clearMTI configValue, data⟩

/-- SPI_Write (Communication.c:118-202).  configValue is the persistent
global read at line 122; slaveDeviceId is the first parameter (unused by the
body: the SPISSR write at line 132 is ~(0x00000001 << (0)) = 0xFFFFFFFE).
data[i] accesses are modelled with List.getD; the store of the u32 read from
SPIDRR into the unsigned char buffer truncates mod 256. -/
def SPI_Write (env : SpiEnv) (configValue : Nat) (slaveDeviceId : Nat)
    (data : List Nat) (bytesNumber : Nat) : SpiResult :=
  let r := spiLoop env bytesNumber bytesNumber (spiSt0 configValue data)
  if r.1 = true then
    ⟨Int.ofNat bytesNumber, r.2.1.buf,
     ([Ev.wr Reg.SPICR configValue, Ev.wr Reg.SPISSR 0xFFFFFFFE,
       Ev.wr Reg.SPIDTR (data.getD 0 0), Ev.wr Reg.SPICR (clearMTI configValue)] ++
      r.2.2) ++
     [Ev.wr Reg.SPICR (setMTI r.2.1.cfg), Ev.wr Reg.SPISSR 0xFFFFFFFF]⟩
  else
    ⟨-1, r.2.1.buf,
     [Ev.wr Reg.SPICR configValue, Ev.wr Reg.SPISSR 0xFFFFFFFE,
      Ev.wr Reg.SPIDTR (data.getD 0 0), Ev.wr Reg.SPICR (clearMTI configValue)] ++
     r.2.2⟩

/-- The status poll of SPI_Read (Communication.c:240-244).  The source text
is a byte-for-byte copy of the poll in SPI_Write; it is transcribed
separately so that the equivalence of the two functions is a theorem, not a
definition. -/
def spiPollR (env : SpiEnv) (p : Nat) : Nat → List Ev × Nat × Bool
  | 0 =>
    if env.status p &&& 1 = 1 then ([Ev.rd Reg.SPISR (env.status p)], 1, false)
    else ([Ev.rd Reg.SPISR (env.status p)], 1, true)
  | t+1 =>
    if env.status p &&& 1 = 1 then
      (Ev.rd Reg.SPISR (env.status p) :: (spiPollR env (p+1) t).1,
       (spiPollR env (p+1) t).2.1 + 1, (spiPollR env (p+1) t).2.2)
    else ([Ev.rd Reg.SPISR (env.status p)], 1, true)

/-- The while (txCnt < bytesNumber) loop of SPI_Read
(Communication.c:237-286), transcribed separately from SPI_Write's loop
(the two source loops are identical). -/
def spiLoopR (env : SpiEnv) (n : Nat) : Nat → SpiSt → Bool × SpiSt × List Ev
  | 0, st => (true, st, [])
  | fuel+1, st =>
    if st.txCnt < n then
      let pr := spiPollR env st.pollIdx st.tmo
      if pr.2.2 = true then
        let st1 : SpiSt :=
          if st.rxCnt < n then
            { st with pollIdx := st.pollIdx + pr.2.1, tmo := 0xFFFF,
                      buf := st.buf.set st.rxCnt (env.rx st.popIdx % 256),
                      rxCnt := st.rxCnt + 1, popIdx := st.popIdx + 1,
                      txCnt := st.txCnt + 1 }
          else
            { st with pollIdx := st.pollIdx + pr.2.1, tmo := 0xFFFF,
                      txCnt := st.txCnt + 1 }
        let evs1 : List Ev :=
          if st.rxCnt < n then [Ev.rd Reg.SPIDRR (env.rx st.popIdx)] else []
        let st2 : SpiSt :=
          if st1.txCnt < n then { st1 with cfg := clearMTI (setMTI st1.cfg) } else st1
        let evs2 : List Ev :=
          if st1.txCnt < n then
            [Ev.wr Reg.SPICR (setMTI st1.cfg),
             Ev.wr Reg.SPIDTR (st1.buf.getD st1.txCnt 0),
             Ev.wr Reg.SPICR (clearMTI (setMTI st1.cfg))]
          else []
        let r := spiLoopR env n fuel st2
        (r.1, r.2.1, (Ev.pollStart st.tmo :: pr.1) ++ evs1 ++ evs2 ++ r.2.2)
      else
        (false, { st with pollIdx := st.pollIdx + pr.2.1, cfg := setMTI st.cfg },
         (Ev.pollStart st.tmo :: pr.1) ++
           [Ev.wr Reg.SPICR (setMTI st.cfg), Ev.wr Reg.SRR 0x0A,
            Ev.wr Reg.SPISSR 0xFFFFFFFF, Ev.wr Reg.SPICR (setMTI st.cfg)])
    else (true, st, [])

/-- SPI_Read (Communication.c:213-297).  The body is a byte-for-byte copy of
SPI_Write (same preamble, same loop, same epilogue, returns bytesNumber). -/
def SPI_Read (env : SpiEnv) (configValue : Nat) (slaveDeviceId : Nat)
    (data : List Nat) (bytesNumber : Nat) : SpiResult :=
  let r := spiLoopR env bytesNumber bytesNumber (spiSt0 configValue data)
  if r.1 = true then
    ⟨Int.ofNat bytesNumber, r.2.1.buf,
     ([Ev.wr Reg.SPICR configValue, Ev.wr Reg.SPISSR 0xFFFFFFFE,
       Ev.wr Reg.SPIDTR (data.getD 0 0), Ev.wr Reg.SPICR (clearMTI configValue)] ++
      r.2.2) ++
     [Ev.wr Reg.SPICR (setMTI r.2.1.cfg), Ev.wr Reg.SPISSR 0xFFFFFFFF]⟩
  else
    ⟨-1, r.2.1.buf,
     [Ev.wr Reg.SPICR configValue, Ev.wr Reg.SPISSR 0xFFFFFFFE,
      Ev.wr Reg.SPIDTR (data.getD 0 0), Ev.wr Reg.SPICR (clearMTI configValue)] ++
     r.2.2⟩

/-- Bit positions used by SPI_Init to build the SPI control-register image.
Modelled from the spec: Communication.h, which defines these constants, is
not under src/; the positions follow the Xilinx quad-SPI control register
layout that the spec's Configuration Word bitfield describes.  Every claim
proved below about SPI_Init is independent of the concrete positions. -/
def LSBFirst : Nat := 9

/-- Transaction-inhibit bit position (see LSBFirst). -/
def MasterTranInh : Nat := 8

/-- Manual slave-select-assert enable bit position (see LSBFirst). -/
def ManualSlaveAssEn : Nat := 7

/-- Receive-FIFO reset bit position (see LSBFirst). -/
def RxFifoReset : Nat := 6

/-- Transmit-FIFO reset bit position (see LSBFirst). -/
def TxFifoReset : Nat := 5

/-- Clock-phase bit position (see LSBFirst). -/
def CHPA : Nat := 4

/-- Clock-polarity bit position (see LSBFirst). -/
def CPOL : Nat := 3

/-- Master-mode bit position (see LSBFirst). -/
def Master : Nat := 2

/-- SPI-enable bit position (see LSBFirst). -/
def SPE : Nat := 1

/-- Loopback bit position (see LSBFirst). -/
def LOOP : Nat := 0

/-- SPI_Init (Communication.c:82-106).  Takes the previous value of the
persistent global configValue (line 51) and returns the new configValue, the
register writes performed, and the (always 0) return status.  The C operator
!clockEdg yields 1 when clockEdg == 0 and 0 otherwise. -/
def SPI_Init (configValue : Nat) (lsbFirst : Nat) (clockFreq : Nat)
    (clockPol : Nat) (clockEdg : Nat) : Nat × List Ev × Int :=
  let cv := configValue |||
    ((lsbFirst <<< LSBFirst) ||| (1 <<< MasterTranInh) ||| (1 <<< ManualSlaveAssEn) |||
     (1 <<< RxFifoReset) ||| (0 <<< TxFifoReset) |||
     ((if clockEdg = 0 then 1 else 0) <<< CHPA) ||| (clockPol <<< CPOL) |||
     (1 <<< Master) ||| (1 <<< SPE) ||| (0 <<< LOOP))
  (cv, [Ev.wr Reg.SPISSR 0xFFFFFFFF, Ev.wr Reg.SPICR cv], 0)

/-- Behaviour of the I2C peripheral as seen through reads: sr is the value
returned by the k-th read of the status register SR, rxFifo the value
returned by the k-th read of RX_FIFO. -/
structure I2cEnv where
  sr : Nat → Nat
  rxFifo : Nat → Nat

/-- Local state of the I2C_Read loop (Communication.c:415-416): receive
counter, SR and RX_FIFO read indices, timeout countdown, caller's buffer. -/
structure I2cSt where
  rxCnt : Nat
  pollIdx : Nat
  popIdx : Nat
  tmo : Nat
  buf : List Nat
  deriving DecidableEq, Repr

/-- The wait while ((Xil_In32(SR) & 0x40) && (timeout--))
(Communication.c:433): reads SR while bit 6 (receive FIFO empty) is set.
Same post-decrement semantics as spiPoll; false means C's timeout == -1
test at line 434 fires. -/
def i2cPoll (env : I2cEnv) (p : Nat) : Nat → List Ev × Nat × Bool
  | 0 =>
    if env.sr p &&& 0x40 ≠ 0 then ([Ev.rd Reg.SR (env.sr p)], 1, false)
    else ([Ev.rd Reg.SR (env.sr p)], 1, true)
  | t+1 =>
    if env.sr p &&& 0x40 ≠ 0 then
      (Ev.rd Reg.SR (env.sr p) :: (i2cPoll env (p+1) t).1,
       (i2cPoll env (p+1) t).2.1 + 1, (i2cPoll env (p+1) t).2.2)
    else ([Ev.rd Reg.SR (env.sr p)], 1, true)

/-- The while (rxCnt < bytesNumber) loop of I2C_Read
(Communication.c:430-453).  On timeout exhaustion the recovery sequence of
lines 437-443 is emitted and the loop stops with false; the store into the
unsigned char buffer of (Xil_In32(RX_FIFO) & 0xFFFF) truncates mod 256. -/
def i2cLoop (env : I2cEnv) (n : Nat) : Nat → I2cSt → Bool × I2cSt × List Ev
  | 0, st => (true, st, [])
  | fuel+1, st =>
    if st.rxCnt < n then
      let pr := i2cPoll env st.pollIdx st.tmo
      if pr.2.2 = true then
        let st1 : I2cSt :=
          { st with pollIdx := st.pollIdx + pr.2.1, tmo := 0xFFFFFF,
                    buf := st.buf.set st.rxCnt ((env.rxFifo st.popIdx &&& 0xFFFF) % 256),
                    rxCnt := st.rxCnt + 1, popIdx := st.popIdx + 1 }
        let r := i2cLoop env n fuel st1
        (r.1, r.2.1,
         (Ev.pollStart st.tmo :: pr.1) ++ [Ev.rd Reg.RX_FIFO (env.rxFifo st.popIdx)] ++ r.2.2)
      else
        (false, { st with pollIdx := st.pollIdx + pr.2.1 },
         (Ev.pollStart st.tmo :: pr.1) ++
           [Ev.wr Reg.CR 0x00, Ev.wr Reg.RX_FIFO_PIRQ 0x0F,
            Ev.wr Reg.CR 0x02, Ev.wr Reg.CR 0x01])
    else (true, st, [])

/-- Result of an I2C call: the (unsigned char valued) return, the final
buffer contents, and the trace. -/
structure I2cResult where
  ret : Nat
  buf : List Nat
  evs : List Ev
  deriving DecidableEq, Repr

/-- Initial loop state of I2C_Read: counters zero, timeout at its 0xFFFFFF
ceiling. -/
def i2cSt0 (dataBuffer : List Nat) : I2cSt := ⟨0, 0, 0, 0xFFFFFF, dataBuffer⟩

/-- I2C_Read (Communication.c:410-458).  The error path (timeout) returns
rxCnt without the trailing delay; the success path issues TIME_DelayMs(10)
and returns rxCnt = bytesNumber.  stopBit is accepted and never used by the
body. -/
def I2C_Read (env : I2cEnv) (slaveAddress : Nat) (dataBuffer : List Nat)
    (bytesNumber : Nat) (stopBit : Nat) : I2cResult :=
  let r := i2cLoop env bytesNumber bytesNumber (i2cSt0 dataBuffer)
  if r.1 = true then
    ⟨r.2.1.rxCnt, r.2.1.buf,
     ([Ev.wr Reg.CR 0x002, Ev.wr Reg.CR 0x001, Ev.delayMs 10,
       Ev.wr Reg.TX_FIFO (0x101 ||| (slaveAddress <<< 1)),
       Ev.wr Reg.TX_FIFO (0x200 + bytesNumber)] ++ r.2.2) ++
     [Ev.delayMs 10]⟩
  else
    ⟨r.2.1.rxCnt, r.2.1.buf,
     [Ev.wr Reg.CR 0x002, Ev.wr Reg.CR 0x001, Ev.delayMs 10,
      Ev.wr Reg.TX_FIFO (0x101 ||| (slaveAddress <<< 1)),
      Ev.wr Reg.TX_FIFO (0x200 + bytesNumber)] ++ r.2.2⟩

/-- The while (txCnt < bytesNumber) push loop of I2C_Write
(Communication.c:490-496): pushes dataBuffer[txCnt], with the final byte
(txCnt == bytesNumber - 1) tagged with the 0x200 stop bit in the same push.
fuel = bytesNumber - txCnt at every call. -/
def i2cWriteLoop (dataBuffer : List Nat) (n : Nat) : Nat → Nat → List Ev
  | 0, _ => []
  | fuel+1, txCnt =>
    if txCnt < n then
      Ev.wr Reg.TX_FIFO
        (if txCnt = n - 1 then 0x200 ||| dataBuffer.getD txCnt 0
         else dataBuffer.getD txCnt 0) ::
      i2cWriteLoop dataBuffer n fuel (txCnt + 1)
    else []

/-- I2C_Write (Communication.c:473-500): reset and enable the core, settle,
push the address+write command 0x100 | (slaveAddress << 1), push the data
bytes, settle, return txCnt = bytesNumber.  stopBit is accepted and never
used; there is no status read anywhere on this path. -/
def I2C_Write (env : I2cEnv) (slaveAddress : Nat) (dataBuffer : List Nat)
    (bytesNumber : Nat) (stopBit : Nat) : I2cResult :=
  ⟨bytesNumber, dataBuffer,
   ([Ev.wr Reg.CR 0x002, Ev.wr Reg.CR 0x001, Ev.delayMs 10,
     Ev.wr Reg.TX_FIFO (0x100 ||| (slaveAddress <<< 1))] ++
    i2cWriteLoop dataBuffer bytesNumber bytesNumber 0) ++
   [Ev.delayMs 10]⟩

/-- Number of register-read events in a trace (used to state that a path
performs no polling). -/
def rdCount : List Ev → Nat
  | [] => 0
  | Ev.rd _ _ :: t => rdCount t + 1
  | _ :: t => rdCount t

/-- Number of reads of the I2C status register SR in a trace (used to bound
the total polling work of I2C_Read). -/
def srRdCount : List Ev → Nat
  | [] => 0
  | Ev.rd Reg.SR _ :: t => srRdCount t + 1
  | _ :: t => srRdCount t

/-- SPI peripheral that always reports ready (SPISR bit 0 clear) and whose
receive register pops 0xA0, 0xA1, ... -/
def spiEnvReady : SpiEnv := ⟨fun _ => 0, fun i => 0xA0 + i⟩

/-- SPI peripheral that always reports busy (SPISR bit 0 set). -/
def spiEnvStall : SpiEnv := ⟨fun _ => 1, fun _ => 0⟩

/-- I2C peripheral with receive data always available (SR bit 6 clear),
popping 0xB0, 0xB1, ... -/
def i2cEnvReady : I2cEnv := ⟨fun _ => 0, fun i => 0xB0 + i⟩

/-- I2C peripheral whose receive FIFO stays empty forever (SR bit 6 set). -/
def i2cEnvStall : I2cEnv := ⟨fun _ => 0x40, fun _ => 0⟩

/-- The state st1 of a successful spiLoop iteration (abbreviation of the
loop-body term, for stating the unfolding lemmas below). -/
def spiSt1 (env : SpiEnv) (n : Nat) (st : SpiSt) : SpiSt :=
  if st.rxCnt < n then
    { st with pollIdx := st.pollIdx + (spiPoll env st.pollIdx st.tmo).2.1, tmo := 0xFFFF,
              buf := st.buf.set st.rxCnt (env.rx st.popIdx % 256),
              rxCnt := st.rxCnt + 1, popIdx := st.popIdx + 1,
              txCnt := st.txCnt + 1 }
  else
    { st with pollIdx := st.pollIdx + (spiPoll env st.pollIdx st.tmo).2.1, tmo := 0xFFFF,
              txCnt := st.txCnt + 1 }

/-- The receive-pop events of a successful spiLoop iteration. -/
def spiEvs1 (env : SpiEnv) (n : Nat) (st : SpiSt) : List Ev :=
  if st.rxCnt < n then [Ev.rd Reg.SPIDRR (env.rx st.popIdx)] else []

/-- The state after the optional next-byte push of a spiLoop iteration. -/
def spiSt2 (env : SpiEnv) (n : Nat) (st : SpiSt) : SpiSt :=
  if (spiSt1 env n st).txCnt < n then
    { spiSt1 env n st with cfg := clearMTI (setMTI (spiSt1 env n st).cfg) }
  else spiSt1 env n st

/-- The push events of a spiLoop iteration. -/
def spiEvs2 (env : SpiEnv) (n : Nat) (st : SpiSt) : List Ev :=
  if (spiSt1 env n st).txCnt < n then
    [Ev.wr Reg.SPICR (setMTI (spiSt1 env n st).cfg),
     Ev.wr Reg.SPIDTR ((spiSt1 env n st).buf.getD (spiSt1 env n st).txCnt 0),
     Ev.wr Reg.SPICR (clearMTI (setMTI (spiSt1 env n st).cfg))]
  else []

/-- The state st1 of a successful i2cLoop iteration. -/
def i2cSt1 (env : I2cEnv) (st : I2cSt) : I2cSt :=
  { st with pollIdx := st.pollIdx + (i2cPoll env st.pollIdx st.tmo).2.1, tmo := 0xFFFFFF,
            buf := st.buf.set st.rxCnt ((env.rxFifo st.popIdx &&& 0xFFFF) % 256),
            rxCnt := st.rxCnt + 1, popIdx := st.popIdx + 1 }

/-! ## Helper lemmas -/

theorem getD_set_self (l : List Nat) : ∀ (i v : Nat), i < l.length →
    (l.set i v).getD i 0 = v := by
  induction l with
  | nil => intro i v h; simp at h
  | cons a t ih =>
    intro i v h
    cases i with
    | zero => rfl
    | succ i =>
      simpa using ih i v (Nat.lt_of_succ_lt_succ (by simpa using h))

theorem getD_set_ne (l : List Nat) : ∀ (i j v : Nat), i ≠ j →
    (l.set i v).getD j 0 = l.getD j 0 := by
  induction l with
  | nil => intro i j v _; simp [List.set]
  | cons a t ih =>
    intro i j v hij
    cases i with
    | zero =>
      cases j with
      | zero => exact absurd rfl hij
      | succ j => rfl
    | succ i =>
      cases j with
      | zero => rfl
      | succ j =>
        simpa using ih i j v (fun h => hij (by rw [h]))

theorem suffix_lift {α : Type} {a s : List α} (x : List α) (h : ∃ p, a = p ++ s) :
    ∃ p, x ++ a = p ++ s := by
  obtain ⟨p, hp⟩ := h
  exact ⟨x ++ p, by rw [hp, List.append_assoc]⟩

theorem setMTI_testBit (x : Nat) : (setMTI x).testBit 8 = true := by
  unfold setMTI
  rw [Nat.testBit_lor]
  have h : (1 <<< 8 : Nat).testBit 8 = true := by decide
  rw [h, Bool.or_true]

theorem rdCount_append : ∀ (l m : List Ev), rdCount (l ++ m) = rdCount l + rdCount m := by
  intro l m
  induction l with
  | nil => simp [rdCount]
  | cons e t ih => cases e <;> simp [rdCount, ih] <;> omega

theorem rdCount_map_wr (r : Reg) (f : Nat → Nat) :
    ∀ (l : List Nat), rdCount (l.map (fun i => Ev.wr r (f i))) = 0 := by
  intro l
  induction l with
  | nil => rfl
  | cons a t ih => simpa [rdCount] using ih

theorem srRdCount_append : ∀ (l m : List Ev),
    srRdCount (l ++ m) = srRdCount l + srRdCount m := by
  intro l m
  induction l with
  | nil => simp [srRdCount]
  | cons e t ih =>
    cases e with
    | rd r v => cases r <;> simp [srRdCount, ih] <;> omega
    | wr r v => simp [srRdCount, ih]
    | delayMs d => simp [srRdCount, ih]
    | pollStart d => simp [srRdCount, ih]

theorem i2cWriteLoop_eq (buf : List Nat) (n : Nat) : ∀ (fuel t : Nat), t + fuel = n →
    i2cWriteLoop buf n fuel t =
      (List.range' t fuel).map (fun i => Ev.wr Reg.TX_FIFO
        (if i = n - 1 then 0x200 ||| buf.getD i 0 else buf.getD i 0))
  | 0, t, _ => by simp [i2cWriteLoop]
  | fuel+1, t, h => by
    have ht : t < n := by omega
    rw [List.range'_succ]
    simp only [i2cWriteLoop, if_pos ht, List.map_cons]
    rw [i2cWriteLoop_eq buf n fuel (t+1) (by omega)]

theorem spiPoll_ok (env : SpiEnv) : ∀ (t p : Nat),
    (∃ j, j ≤ t ∧ env.status (p + j) &&& 1 ≠ 1) → (spiPoll env p t).2.2 = true
  | 0, p, ⟨j, hj, hr⟩ => by
    have hj0 : j = 0 := Nat.le_zero.mp hj
    subst hj0
    simp only [spiPoll]
    rw [if_neg (by simpa using hr)]
  | t+1, p, ⟨j, hj, hr⟩ => by
    by_cases hb : env.status p &&& 1 = 1
    · have hj1 : j ≠ 0 := by
        intro h
        subst h
        simp only [Nat.add_zero] at hr
        exact hr hb
      have hnext : ∃ j', j' ≤ t ∧ env.status ((p+1) + j') &&& 1 ≠ 1 :=
        ⟨j - 1, by omega, by
          have heq : (p+1) + (j-1) = p + j := by omega
          rw [heq]
          exact hr⟩
      simp only [spiPoll, if_pos hb]
      exact spiPoll_ok env t (p+1) hnext
    · simp only [spiPoll, if_neg hb]

theorem spiPoll_allbusy (env : SpiEnv) : ∀ (t p : Nat),
    (∀ q, p ≤ q → env.status q &&& 1 = 1) → (spiPoll env p t).2.2 = false
  | 0, p, H => by simp only [spiPoll, if_pos (H p le_rfl)]
  | t+1, p, H => by
    simp only [spiPoll, if_pos (H p le_rfl)]
    exact spiPoll_allbusy env t (p+1) (fun q hq => H q (by omega))

theorem spiPoll_evs (env : SpiEnv) : ∀ (t p : Nat), ∀ e ∈ (spiPoll env p t).1,
    ∃ v, e = Ev.rd Reg.SPISR v
  | 0, p, e, he => by
    by_cases hb : env.status p &&& 1 = 1
    · simp only [spiPoll, if_pos hb] at he
      simp only [List.mem_singleton] at he
      exact ⟨_, he⟩
    · simp only [spiPoll, if_neg hb] at he
      simp only [List.mem_singleton] at he
      exact ⟨_, he⟩
  | t+1, p, e, he => by
    by_cases hb : env.status p &&& 1 = 1
    · simp only [spiPoll, if_pos hb] at he
      simp only [List.mem_cons] at he
      cases he with
      | inl h => exact ⟨_, h⟩
      | inr h => exact spiPoll_evs env t (p+1) e h
    · simp only [spiPoll, if_neg hb] at he
      simp only [List.mem_singleton] at he
      exact ⟨_, he⟩

theorem i2cPoll_ok (env : I2cEnv) : ∀ (t p : Nat),
    (∃ j, j ≤ t ∧ env.sr (p + j) &&& 0x40 = 0) → (i2cPoll env p t).2.2 = true
  | 0, p, ⟨j, hj, hr⟩ => by
    have hj0 : j = 0 := Nat.le_zero.mp hj
    subst hj0
    simp only [Nat.add_zero] at hr
    simp only [i2cPoll]
    rw [if_neg (by simp [hr])]
  | t+1, p, ⟨j, hj, hr⟩ => by
    by_cases hb : env.sr p &&& 0x40 ≠ 0
    · have hj1 : j ≠ 0 := by
        intro h
        subst h
        simp only [Nat.add_zero] at hr
        exact hb hr
      have hnext : ∃ j', j' ≤ t ∧ env.sr ((p+1) + j') &&& 0x40 = 0 :=
        ⟨j - 1, by omega, by
          have heq : (p+1) + (j-1) = p + j := by omega
          rw [heq]
          exact hr⟩
      simp only [i2cPoll, if_pos hb]
      exact i2cPoll_ok env t (p+1) hnext
    · simp only [i2cPoll, if_neg hb]

theorem i2cPoll_allempty (env : I2cEnv) : ∀ (t p : Nat),
    (∀ q, p ≤ q → env.sr q &&& 0x40 ≠ 0) → (i2cPoll env p t).2.2 = false
  | 0, p, H => by simp only [i2cPoll, if_pos (H p le_rfl)]
  | t+1, p, H => by
    simp only [i2cPoll, if_pos (H p le_rfl)]
    exact i2cPoll_allempty env t (p+1) (fun q hq => H q (by omega))

theorem i2cPoll_evs (env : I2cEnv) : ∀ (t p : Nat), ∀ e ∈ (i2cPoll env p t).1,
    ∃ v, e = Ev.rd Reg.SR v
  | 0, p, e, he => by
    by_cases hb : env.sr p &&& 0x40 ≠ 0
    · simp only [i2cPoll, if_pos hb] at he
      simp only [List.mem_singleton] at he
      exact ⟨_, he⟩
    · simp only [i2cPoll, if_neg hb] at he
      simp only [List.mem_singleton] at he
      exact ⟨_, he⟩
  | t+1, p, e, he => by
    by_cases hb : env.sr p &&& 0x40 ≠ 0
    · simp only [i2cPoll, if_pos hb] at he
      simp only [List.mem_cons] at he
      cases he with
      | inl h => exact ⟨_, h⟩
      | inr h => exact i2cPoll_evs env t (p+1) e h
    · simp only [i2cPoll, if_neg hb] at he
      simp only [List.mem_singleton] at he
      exact ⟨_, he⟩

theorem i2cPoll_srCount (env : I2cEnv) : ∀ (t p : Nat),
    srRdCount (i2cPoll env p t).1 ≤ t + 1
  | 0, p => by
    by_cases hb : env.sr p &&& 0x40 ≠ 0
    · simp [i2cPoll, if_pos hb, srRdCount]
    · simp [i2cPoll, if_neg hb, srRdCount]
  | t+1, p => by
    by_cases hb : env.sr p &&& 0x40 ≠ 0
    · simp only [i2cPoll, if_pos hb, srRdCount]
      have := i2cPoll_srCount env t (p+1)
      omega
    · simp [i2cPoll, if_neg hb, srRdCount]

theorem spiLoop_exit (env : SpiEnv) (n fuel : Nat) (st : SpiSt) (htx : ¬ st.txCnt < n) :
    spiLoop env n (fuel+1) st = (true, st, []) := by
  simp only [spiLoop, if_neg htx]

theorem spiLoop_step_ok (env : SpiEnv) (n fuel : Nat) (st : SpiSt)
    (htx : st.txCnt < n) (hok : (spiPoll env st.pollIdx st.tmo).2.2 = true) :
    spiLoop env n (fuel+1) st =
      ((spiLoop env n fuel (spiSt2 env n st)).1,
       (spiLoop env n fuel (spiSt2 env n st)).2.1,
       (Ev.pollStart st.tmo :: (spiPoll env st.pollIdx st.tmo).1) ++
         spiEvs1 env n st ++ spiEvs2 env n st ++
         (spiLoop env n fuel (spiSt2 env n st)).2.2) := by
  simp only [spiLoop, if_pos htx, hok, if_pos]
  rfl

theorem spiLoop_step_err (env : SpiEnv) (n fuel : Nat) (st : SpiSt)
    (htx : st.txCnt < n) (hbad : (spiPoll env st.pollIdx st.tmo).2.2 = false) :
    spiLoop env n (fuel+1) st =
      (false,
       { st with pollIdx := st.pollIdx + (spiPoll env st.pollIdx st.tmo).2.1,
                 cfg := setMTI st.cfg },
       (Ev.pollStart st.tmo :: (spiPoll env st.pollIdx st.tmo).1) ++
         [Ev.wr Reg.SPICR (setMTI st.cfg), Ev.wr Reg.SRR 0x0A,
          Ev.wr Reg.SPISSR 0xFFFFFFFF, Ev.wr Reg.SPICR (setMTI st.cfg)]) := by
  simp only [spiLoop, if_pos htx, hbad]
  rfl

theorem i2cLoop_exit (env : I2cEnv) (n fuel : Nat) (st : I2cSt) (hrx : ¬ st.rxCnt < n) :
    i2cLoop env n (fuel+1) st = (true, st, []) := by
  simp only [i2cLoop, if_neg hrx]

theorem i2cLoop_step_ok (env : I2cEnv) (n fuel : Nat) (st : I2cSt)
    (hrx : st.rxCnt < n) (hok : (i2cPoll env st.pollIdx st.tmo).2.2 = true) :
    i2cLoop env n (fuel+1) st =
      ((i2cLoop env n fuel (i2cSt1 env st)).1,
       (i2cLoop env n fuel (i2cSt1 env st)).2.1,
       (Ev.pollStart st.tmo :: (i2cPoll env st.pollIdx st.tmo).1) ++
         [Ev.rd Reg.RX_FIFO (env.rxFifo st.popIdx)] ++
         (i2cLoop env n fuel (i2cSt1 env st)).2.2) := by
  simp only [i2cLoop, if_pos hrx, hok, if_pos]
  rfl

theorem i2cLoop_step_err (env : I2cEnv) (n fuel : Nat) (st : I2cSt)
    (hrx : st.rxCnt < n) (hbad : (i2cPoll env st.pollIdx st.tmo).2.2 = false) :
    i2cLoop env n (fuel+1) st =
      (false,
       { st with pollIdx := st.pollIdx + (i2cPoll env st.pollIdx st.tmo).2.1 },
       (Ev.pollStart st.tmo :: (i2cPoll env st.pollIdx st.tmo).1) ++
         [Ev.wr Reg.CR 0x00, Ev.wr Reg.RX_FIFO_PIRQ 0x0F,
          Ev.wr Reg.CR 0x02, Ev.wr Reg.CR 0x01]) := by
  simp only [i2cLoop, if_pos hrx, hbad]
  rfl

theorem spiSt2_fields (env : SpiEnv) (n : Nat) (st : SpiSt) (hrx : st.rxCnt < n) :
    (spiSt2 env n st).txCnt = st.txCnt + 1 ∧
    (spiSt2 env n st).rxCnt = st.rxCnt + 1 ∧
    (spiSt2 env n st).popIdx = st.popIdx + 1 ∧
    (spiSt2 env n st).tmo = 0xFFFF ∧
    (spiSt2 env n st).buf = st.buf.set st.rxCnt (env.rx st.popIdx % 256) := by
  simp only [spiSt2, spiSt1, if_pos hrx]
  by_cases h : st.txCnt + 1 < n
  · simp [h]
  · simp [h]

theorem spiLoop_ok_inv (env : SpiEnv) (n : Nat)
    (H : ∀ p, ∃ j, j ≤ 0xFFFF ∧ env.status (p + j) &&& 1 ≠ 1) :
    ∀ (fuel : Nat) (st : SpiSt), st.txCnt + fuel = n → st.rxCnt = st.txCnt →
      st.popIdx = st.rxCnt → st.tmo = 0xFFFF → n ≤ st.buf.length →
      (spiLoop env n fuel st).1 = true ∧
      (spiLoop env n fuel st).2.1.buf.length = st.buf.length ∧
      (∀ i, i < st.rxCnt → (spiLoop env n fuel st).2.1.buf.getD i 0 = st.buf.getD i 0) ∧
      (∀ i, st.rxCnt ≤ i → i < n → (spiLoop env n fuel st).2.1.buf.getD i 0 = env.rx i % 256) := by
  intro fuel
  induction fuel with
  | zero =>
    intro st hf hrxtx hpop htmo hlen
    exact ⟨rfl, rfl, fun i _ => rfl, fun i h1 h2 => absurd h2 (by omega)⟩
  | succ fuel ih =>
    intro st hf hrxtx hpop htmo hlen
    have htx : st.txCnt < n := by omega
    have hrx : st.rxCnt < n := by omega
    have hok : (spiPoll env st.pollIdx st.tmo).2.2 = true :=
      spiPoll_ok env st.tmo st.pollIdx (by rw [htmo]; exact H st.pollIdx)
    obtain ⟨ht1, ht2, ht3, ht4, ht5⟩ := spiSt2_fields env n st hrx
    have hrxlen : st.rxCnt < st.buf.length := by omega
    have ih2 := ih (spiSt2 env n st) (by omega) (by omega) (by omega) ht4
      (by rw [ht5, List.length_set]; exact hlen)
    obtain ⟨h1, h2, h3, h4⟩ := ih2
    rw [spiLoop_step_ok env n fuel st htx hok]
    refine ⟨h1, ?_, ?_, ?_⟩
    · rw [h2, ht5, List.length_set]
    · intro i hi
      have hi2 : i < (spiSt2 env n st).rxCnt := by omega
      rw [h3 i hi2, ht5]
      exact getD_set_ne st.buf st.rxCnt i _ (by omega)
    · intro i hi1 hi2
      by_cases hcase : i = st.rxCnt
      · have hilt : i < (spiSt2 env n st).rxCnt := by omega
        rw [h3 i hilt, ht5, hpop, hcase]
        exact getD_set_self st.buf st.rxCnt _ hrxlen
      · have hge : (spiSt2 env n st).rxCnt ≤ i := by omega
        exact h4 i hge hi2

theorem spiLoop_false_suffix (env : SpiEnv) (n : Nat) : ∀ (fuel : Nat) (st : SpiSt),
    (spiLoop env n fuel st).1 = false →
    ∃ pfx c, (spiLoop env n fuel st).2.2 =
        pfx ++ [Ev.wr Reg.SPICR c, Ev.wr Reg.SRR 0x0A,
                Ev.wr Reg.SPISSR 0xFFFFFFFF, Ev.wr Reg.SPICR c] ∧
      c.testBit 8 = true := by
  intro fuel
  induction fuel with
  | zero => intro st hf; exact absurd hf (by simp [spiLoop])
  | succ fuel ih =>
    intro st hf
    by_cases htx : st.txCnt < n
    · by_cases hok : (spiPoll env st.pollIdx st.tmo).2.2 = true
      · rw [spiLoop_step_ok env n fuel st htx hok] at hf ⊢
        obtain ⟨pfx, c, hp, hc⟩ := ih (spiSt2 env n st) hf
        refine ⟨((Ev.pollStart st.tmo :: (spiPoll env st.pollIdx st.tmo).1) ++
          spiEvs1 env n st ++ spiEvs2 env n st) ++ pfx, c, ?_, hc⟩
        show (Ev.pollStart st.tmo :: (spiPoll env st.pollIdx st.tmo).1) ++
          spiEvs1 env n st ++ spiEvs2 env n st ++
          (spiLoop env n fuel (spiSt2 env n st)).2.2 = _
        rw [hp]
        simp only [List.append_assoc]
      · have hbad : (spiPoll env st.pollIdx st.tmo).2.2 = false := by
          revert hok
          cases (spiPoll env st.pollIdx st.tmo).2.2 <;> simp
        rw [spiLoop_step_err env n fuel st htx hbad]
        exact ⟨Ev.pollStart st.tmo :: (spiPoll env st.pollIdx st.tmo).1,
          setMTI st.cfg, rfl, setMTI_testBit _⟩
    · rw [spiLoop_exit env n fuel st htx] at hf
      exact absurd hf (by simp)

theorem i2cLoop_srBound (env : I2cEnv) (n : Nat) : ∀ (fuel : Nat) (st : I2cSt),
    st.tmo = 0xFFFFFF →
    srRdCount (i2cLoop env n fuel st).2.2 ≤ fuel * (0xFFFFFF + 1) := by
  intro fuel
  induction fuel with
  | zero => intro st _; simp [i2cLoop, srRdCount]
  | succ fuel ih =>
    intro st htmo
    by_cases hrx : st.rxCnt < n
    · by_cases hok : (i2cPoll env st.pollIdx st.tmo).2.2 = true
      · rw [i2cLoop_step_ok env n fuel st hrx hok]
        show srRdCount ((Ev.pollStart st.tmo :: (i2cPoll env st.pollIdx st.tmo).1) ++
          [Ev.rd Reg.RX_FIFO (env.rxFifo st.popIdx)] ++
          (i2cLoop env n fuel (i2cSt1 env st)).2.2) ≤ (fuel+1) * (0xFFFFFF + 1)
        rw [srRdCount_append, srRdCount_append]
        have h1 : srRdCount (Ev.pollStart st.tmo :: (i2cPoll env st.pollIdx st.tmo).1) ≤
            0xFFFFFF + 1 := by
          have hcnt := i2cPoll_srCount env st.tmo st.pollIdx
          simp only [srRdCount]
          omega
        have h2 : srRdCount [Ev.rd Reg.RX_FIFO (env.rxFifo st.popIdx)] = 0 := by
          simp [srRdCount]
        have h3 := ih (i2cSt1 env st) (by simp [i2cSt1])
        rw [h2]
        have hmul : (fuel + 1) * (0xFFFFFF + 1) = fuel * (0xFFFFFF + 1) + (0xFFFFFF + 1) := by
          ring
        omega
      · have hbad : (i2cPoll env st.pollIdx st.tmo).2.2 = false := by
          revert hok
          cases (i2cPoll env st.pollIdx st.tmo).2.2 <;> simp
        rw [i2cLoop_step_err env n fuel st hrx hbad]
        show srRdCount ((Ev.pollStart st.tmo :: (i2cPoll env st.pollIdx st.tmo).1) ++
          [Ev.wr Reg.CR 0x00, Ev.wr Reg.RX_FIFO_PIRQ 0x0F,
           Ev.wr Reg.CR 0x02, Ev.wr Reg.CR 0x01]) ≤ (fuel+1) * (0xFFFFFF + 1)
        rw [srRdCount_append]
        have h1 : srRdCount (Ev.pollStart st.tmo :: (i2cPoll env st.pollIdx st.tmo).1) ≤
            0xFFFFFF + 1 := by
          have hcnt := i2cPoll_srCount env st.tmo st.pollIdx
          simp only [srRdCount]
          omega
        have h2 : srRdCount [Ev.wr Reg.CR 0x00, Ev.wr Reg.RX_FIFO_PIRQ 0x0F,
            Ev.wr Reg.CR 0x02, Ev.wr Reg.CR 0x01] = 0 := by simp [srRdCount]
        have hmul : (fuel + 1) * (0xFFFFFF + 1) = fuel * (0xFFFFFF + 1) + (0xFFFFFF + 1) := by
          ring
        omega
    · rw [i2cLoop_exit env n fuel st hrx]
      simp [srRdCount]

theorem spiSt1_tmo (env : SpiEnv) (n : Nat) (st : SpiSt) :
    (spiSt1 env n st).tmo = 0xFFFF := by
  unfold spiSt1
  split
  · rfl
  · rfl

theorem spiSt2_tmo (env : SpiEnv) (n : Nat) (st : SpiSt) :
    (spiSt2 env n st).tmo = 0xFFFF := by
  unfold spiSt2
  split
  · exact spiSt1_tmo env n st
  · exact spiSt1_tmo env n st

theorem spiLoop_pollStart (env : SpiEnv) (n : Nat) : ∀ (fuel : Nat) (st : SpiSt),
    st.tmo = 0xFFFF → ∀ v, Ev.pollStart v ∈ (spiLoop env n fuel st).2.2 → v = 0xFFFF := by
  intro fuel
  induction fuel with
  | zero =>
    intro st htmo v hmem
    simp [spiLoop] at hmem
  | succ fuel ih =>
    intro st htmo v hmem
    by_cases htx : st.txCnt < n
    · by_cases hok : (spiPoll env st.pollIdx st.tmo).2.2 = true
      · rw [spiLoop_step_ok env n fuel st htx hok] at hmem
        have hmem2 : Ev.pollStart v ∈
            (Ev.pollStart st.tmo :: (spiPoll env st.pollIdx st.tmo).1) ++
              spiEvs1 env n st ++ spiEvs2 env n st ++
              (spiLoop env n fuel (spiSt2 env n st)).2.2 := hmem
        simp only [List.cons_append, List.append_assoc, List.mem_cons,
          List.mem_append] at hmem2
        rcases hmem2 with h | h | h | h | h
        · injection h with hv
          omega
        · obtain ⟨w, hw⟩ := spiPoll_evs env st.tmo st.pollIdx _ h
          simp at hw
        · by_cases hrx : st.rxCnt < n
          · simp [spiEvs1, hrx] at h
          · simp [spiEvs1, hrx] at h
        · by_cases hpush : (spiSt1 env n st).txCnt < n
          · simp [spiEvs2, hpush] at h
          · simp [spiEvs2, hpush] at h
        · exact ih (spiSt2 env n st) (spiSt2_tmo env n st) v h
      · have hbad : (spiPoll env st.pollIdx st.tmo).2.2 = false := by
          revert hok
          cases (spiPoll env st.pollIdx st.tmo).2.2 <;> simp
        rw [spiLoop_step_err env n fuel st htx hbad] at hmem
        have hmem2 : Ev.pollStart v ∈
            (Ev.pollStart st.tmo :: (spiPoll env st.pollIdx st.tmo).1) ++
              [Ev.wr Reg.SPICR (setMTI st.cfg), Ev.wr Reg.SRR 0x0A,
               Ev.wr Reg.SPISSR 0xFFFFFFFF, Ev.wr Reg.SPICR (setMTI st.cfg)] := hmem
        simp only [List.cons_append, List.mem_cons, List.mem_append] at hmem2
        rcases hmem2 with h | h | h
        · injection h with hv
          omega
        · obtain ⟨w, hw⟩ := spiPoll_evs env st.tmo st.pollIdx _ h
          simp at hw
        · simp at h
    · rw [spiLoop_exit env n fuel st htx] at hmem
      simp at hmem

theorem i2cLoop_pollStart (env : I2cEnv) (n : Nat) : ∀ (fuel : Nat) (st : I2cSt),
    st.tmo = 0xFFFFFF → ∀ v, Ev.pollStart v ∈ (i2cLoop env n fuel st).2.2 → v = 0xFFFFFF := by
  intro fuel
  induction fuel with
  | zero =>
    intro st htmo v hmem
    simp [i2cLoop] at hmem
  | succ fuel ih =>
    intro st htmo v hmem
    by_cases hrx : st.rxCnt < n
    · by_cases hok : (i2cPoll env st.pollIdx st.tmo).2.2 = true
      · rw [i2cLoop_step_ok env n fuel st hrx hok] at hmem
        have hmem2 : Ev.pollStart v ∈
            (Ev.pollStart st.tmo :: (i2cPoll env st.pollIdx st.tmo).1) ++
              [Ev.rd Reg.RX_FIFO (env.rxFifo st.popIdx)] ++
              (i2cLoop env n fuel (i2cSt1 env st)).2.2 := hmem
        simp only [List.cons_append, List.append_assoc, List.mem_cons,
          List.mem_append] at hmem2
        rcases hmem2 with h | h | h | h
        · injection h with hv
          omega
        · obtain ⟨w, hw⟩ := i2cPoll_evs env st.tmo st.pollIdx _ h
          simp at hw
        · simp at h
        · rcases h with h | h
          · simp at h
          · exact ih (i2cSt1 env st) rfl v h
      · have hbad : (i2cPoll env st.pollIdx st.tmo).2.2 = false := by
          revert hok
          cases (i2cPoll env st.pollIdx st.tmo).2.2 <;> simp
        rw [i2cLoop_step_err env n fuel st hrx hbad] at hmem
        have hmem2 : Ev.pollStart v ∈
            (Ev.pollStart st.tmo :: (i2cPoll env st.pollIdx st.tmo).1) ++
              [Ev.wr Reg.CR 0x00, Ev.wr Reg.RX_FIFO_PIRQ 0x0F,
               Ev.wr Reg.CR 0x02, Ev.wr Reg.CR 0x01] := hmem
        simp only [List.cons_append, List.mem_cons, List.mem_append] at hmem2
        rcases hmem2 with h | h | h
        · injection h with hv
          omega
        · obtain ⟨w, hw⟩ := i2cPoll_evs env st.tmo st.pollIdx _ h
          simp at hw
        · simp at h
    · rw [i2cLoop_exit env n fuel st hrx] at hmem
      simp at hmem

/-! ## Claim theorems -/

/-- Claim C9: SPI_Read and SPI_Write are extensionally equal: for every
slaveDeviceId, buffer, bytesNumber, persisted configuration word and
peripheral behaviour, the two functions produce the same return value, the
same final buffer contents and the same trace of register accesses. -/
theorem spi_read_eq_spi_write : ∀ (env : SpiEnv) (cfg sid : Nat) (data : List Nat) (n : Nat),
    SPI_Read env cfg sid data n = SPI_Write env cfg sid data n := by
  have hpoll : ∀ (env : SpiEnv) (t p : Nat), spiPollR env p t = spiPoll env p t := by
    intro env t
    induction t with
    | zero => intro p; rfl
    | succ t ih => intro p; simp only [spiPollR, spiPoll, ih]
  have hloop : ∀ (env : SpiEnv) (n fuel : Nat) (st : SpiSt),
      spiLoopR env n fuel st = spiLoop env n fuel st := by
    intro env n fuel
    induction fuel with
    | zero => intro st; rfl
    | succ fuel ih => intro st; simp only [spiLoopR, spiLoop, hpoll, ih]
  intro env cfg sid data n
  simp only [SPI_Read, SPI_Write, hloop]

/-- Claim C7: the stopBit argument of I2C_Read and I2C_Write has no effect
on the return value, the final buffer contents or the trace of register
accesses: runs with stopBit = s and stopBit = s' are identical for every
environment and argument list. -/
theorem stopBit_no_effect : ∀ (env : I2cEnv) (sa : Nat) (buf : List Nat) (n s s' : Nat),
    I2C_Read env sa buf n s = I2C_Read env sa buf n s' ∧
    I2C_Write env sa buf n s = I2C_Write env sa buf n s' :=
  fun _ _ _ _ _ _ => ⟨rfl, rfl⟩

/-- Claim C8: with bytesNumber = 0, SPI_Write terminates for every
peripheral behaviour and returns 0, executing zero iterations of the
transfer loop (the trace holds no status read and no poll) while still
pushing buffer element 0 into the TX data register before the loop. -/
theorem spi_write_zero : ∀ (env : SpiEnv) (cfg sid : Nat) (data : List Nat),
    SPI_Write env cfg sid data 0 =
      ⟨0, data,
       [Ev.wr Reg.SPICR cfg, Ev.wr Reg.SPISSR 0xFFFFFFFE,
        Ev.wr Reg.SPIDTR (data.getD 0 0), Ev.wr Reg.SPICR (clearMTI cfg),
        Ev.wr Reg.SPICR (setMTI (clearMTI cfg)), Ev.wr Reg.SPISSR 0xFFFFFFFF]⟩ :=
  fun _ _ _ _ => rfl

/-- Claim C4: I2C_Write returns exactly bytesNumber for every argument list,
performs no status read (no polling, no timeout path), and its trace is the
core reset/enable, the settle delay, the address+write command
0x100 | (slaveAddress << 1), then dataBuffer[i] for each i below
bytesNumber with the final byte tagged 0x200 in the same push, and the
trailing settle delay. -/
theorem i2c_write_spec : ∀ (env : I2cEnv) (sa : Nat) (buf : List Nat) (n stop : Nat),
    (I2C_Write env sa buf n stop).ret = n ∧
    (I2C_Write env sa buf n stop).evs =
      ([Ev.wr Reg.CR 0x002, Ev.wr Reg.CR 0x001, Ev.delayMs 10,
        Ev.wr Reg.TX_FIFO (0x100 ||| (sa <<< 1))] ++
       (List.range n).map (fun i => Ev.wr Reg.TX_FIFO
          (if i = n - 1 then 0x200 ||| buf.getD i 0 else buf.getD i 0))) ++
      [Ev.delayMs 10] ∧
    rdCount (I2C_Write env sa buf n stop).evs = 0 := by
  intro env sa buf n stop
  have hloop := i2cWriteLoop_eq buf n n 0 (by omega)
  have hevs : (I2C_Write env sa buf n stop).evs =
      ([Ev.wr Reg.CR 0x002, Ev.wr Reg.CR 0x001, Ev.delayMs 10,
        Ev.wr Reg.TX_FIFO (0x100 ||| (sa <<< 1))] ++
       (List.range n).map (fun i => Ev.wr Reg.TX_FIFO
          (if i = n - 1 then 0x200 ||| buf.getD i 0 else buf.getD i 0))) ++
      [Ev.delayMs 10] := by
    simp only [I2C_Write, hloop, List.range_eq_range']
  refine ⟨rfl, hevs, ?_⟩
  rw [hevs, rdCount_append, rdCount_append,
      rdCount_map_wr Reg.TX_FIFO (fun i => if i = n - 1 then 0x200 ||| buf.getD i 0 else buf.getD i 0)]
  rfl

/-- Claim C10: SPI_Init only ORs bits into the persisted configuration
word: one call never clears a bit of configValue, and across any sequence
of SPI_Init calls the set of one-bits is monotonically non-decreasing, so a
later call with lsbFirst = 0, clockPol = 0 or clockEdg = 1 cannot clear the
corresponding bits set by an earlier call. -/
theorem spi_init_monotone :
    (∀ (cv lsb f pol edg i : Nat), cv.testBit i = true →
       ((SPI_Init cv lsb f pol edg).1).testBit i = true) ∧
    (∀ (calls : List (Nat × Nat × Nat × Nat)) (cv i : Nat), cv.testBit i = true →
       (calls.foldl (fun c a => (SPI_Init c a.1 a.2.1 a.2.2.1 a.2.2.2).1) cv).testBit i = true) := by
  have hone : ∀ (cv lsb f pol edg i : Nat), cv.testBit i = true →
      ((SPI_Init cv lsb f pol edg).1).testBit i = true := by
    intro cv lsb f pol edg i h
    simp only [SPI_Init, Nat.testBit_lor, h, Bool.true_or]
  refine ⟨hone, ?_⟩
  intro calls
  induction calls with
  | nil => intro cv i h; simpa using h
  | cons a t ih =>
    intro cv i h
    simpa [List.foldl_cons] using ih _ i (hone cv a.1 a.2.1 a.2.2.1 a.2.2.2 i h)

/-- Witness for spi_init_monotone: bit 9 (LSBFirst), set by an earlier call
with lsbFirst = 1 (configuration word 0x200), survives a later SPI_Init with
lsbFirst = 0, clockPol = 0, clockEdg = 1. -/
theorem spi_init_monotone_witness :
    Nat.testBit 0x200 9 = true ∧ ((SPI_Init 0x200 0 100000 0 1).1).testBit 9 = true :=
  ⟨by decide, spi_init_monotone.1 0x200 0 100000 0 1 9 (by decide)⟩

/-- Counterexample to claim C5: SPI_Write called with slaveDeviceId = 1
writes 0xFFFFFFFE to SPISSR (bit 1, the one C5 says is cleared for this
device, is still set), and the whole run is identical to a run with
slaveDeviceId = 2: the value written to SPISSR is not a function of the
slaveDeviceId argument. -/
theorem spi_ssr_counterexample :
    (SPI_Write spiEnvReady 0x1E6 1 [5] 1).evs.getD 1 (Ev.delayMs 0) =
      Ev.wr Reg.SPISSR 0xFFFFFFFE ∧
    Nat.testBit 0xFFFFFFFE 1 = true ∧
    SPI_Write spiEnvReady 0x1E6 1 [5] 1 = SPI_Write spiEnvReady 0x1E6 2 [5] 1 :=
  ⟨by decide, by decide, rfl⟩

/-- Claim C5 amended: at the start of every SPI_Write and SPI_Read call the
slave-select register is written with 0xFFFFFFFE — only bit 0 cleared —
independently of the slaveDeviceId argument. -/
theorem spi_ssr_write_fixed : ∀ (env : SpiEnv) (cfg sid : Nat) (data : List Nat) (n : Nat),
    (SPI_Write env cfg sid data n).evs.take 2 =
      [Ev.wr Reg.SPICR cfg, Ev.wr Reg.SPISSR 0xFFFFFFFE] ∧
    (SPI_Read env cfg sid data n).evs.take 2 =
      [Ev.wr Reg.SPICR cfg, Ev.wr Reg.SPISSR 0xFFFFFFFE] := by
  intro env cfg sid data n
  constructor
  · by_cases h : (spiLoop env n n (spiSt0 cfg data)).1 = true
    · simp [SPI_Write, h]
    · simp [SPI_Write, h]
  · by_cases h : (spiLoopR env n n (spiSt0 cfg data)).1 = true
    · simp [SPI_Read, h]
    · simp [SPI_Read, h]

/-- Claim C1: for every count ≥ 1 and buffer of at least count elements, if
no per-byte status poll can exhaust its 0xFFFF budget (from every read
index, a ready status — SPISR bit 0 clear — appears within the budget),
SPI_Write returns count, the buffer's first count elements are the bytes
popped from SPIDRR in pop order, and the trace ends with a SPICR write
whose transaction-inhibit bit (bit 8) is set followed by an all-ones write
to the slave-select register. -/
theorem spi_write_success (env : SpiEnv) (cfg sid : Nat) (data : List Nat) (n : Nat)
    (hn : 1 ≤ n) (hlen : n ≤ data.length)
    (H : ∀ p, ∃ j, j ≤ 0xFFFF ∧ env.status (p + j) &&& 1 ≠ 1) :
    (SPI_Write env cfg sid data n).ret = Int.ofNat n ∧
    (∀ i, i < n → (SPI_Write env cfg sid data n).buf.getD i 0 = env.rx i % 256) ∧
    ∃ pfx c, (SPI_Write env cfg sid data n).evs =
        pfx ++ [Ev.wr Reg.SPICR c, Ev.wr Reg.SPISSR 0xFFFFFFFF] ∧
      c.testBit 8 = true := by
  obtain ⟨h1, h2, h3, h4⟩ := spiLoop_ok_inv env n H n (spiSt0 cfg data)
    (by simp [spiSt0]) rfl rfl rfl (by simpa [spiSt0] using hlen)
  refine ⟨by simp [SPI_Write, h1], ?_, ?_⟩
  · intro i hi
    have hres : (SPI_Write env cfg sid data n).buf =
        (spiLoop env n n (spiSt0 cfg data)).2.1.buf := by
      simp [SPI_Write, h1]
    rw [hres]
    exact h4 i (Nat.zero_le i) hi
  · refine ⟨Ev.wr Reg.SPICR cfg :: Ev.wr Reg.SPISSR 0xFFFFFFFE ::
      Ev.wr Reg.SPIDTR (data.getD 0 0) :: Ev.wr Reg.SPICR (clearMTI cfg) ::
      (spiLoop env n n (spiSt0 cfg data)).2.2,
      setMTI (spiLoop env n n (spiSt0 cfg data)).2.1.cfg,
      ?_, setMTI_testBit _⟩
    simp [SPI_Write, h1]

/-- Witness for spi_write_success: a 3-byte transfer against a peripheral
that is always ready and pops 0xA0, 0xA1, 0xA2. -/
theorem spi_write_success_witness :
    (SPI_Write spiEnvReady 0x1E6 0 [1, 2, 3] 3).ret = Int.ofNat 3 ∧
    (∀ i, i < 3 → (SPI_Write spiEnvReady 0x1E6 0 [1, 2, 3] 3).buf.getD i 0 =
      spiEnvReady.rx i % 256) ∧
    ∃ pfx c, (SPI_Write spiEnvReady 0x1E6 0 [1, 2, 3] 3).evs =
        pfx ++ [Ev.wr Reg.SPICR c, Ev.wr Reg.SPISSR 0xFFFFFFFF] ∧
      c.testBit 8 = true :=
  spi_write_success spiEnvReady 0x1E6 0 [1, 2, 3] 3 (by decide) (by decide)
    (fun p => ⟨0, by decide, by simp only [spiEnvReady]; decide⟩)

/-- Claim C2: if a per-byte status poll of SPI_Write never observes the
ready condition, the call returns -1 after emitting, in order: a SPICR
write with transaction-inhibit (bit 8) set, the soft-reset value 0x0000000A
to SRR, all-ones to the slave-select register, and the same configuration
word to SPICR again.  Stated for a full run against an always-busy
peripheral (first conjunct) and, for the general per-byte case, for the
transfer loop from any state whose current poll can never see ready
(second conjunct). -/
theorem spi_write_timeout :
    (∀ (env : SpiEnv) (cfg sid : Nat) (data : List Nat) (n : Nat), 1 ≤ n →
       (∀ p, env.status p &&& 1 = 1) →
       (SPI_Write env cfg sid data n).ret = -1 ∧
       ∃ pfx c, (SPI_Write env cfg sid data n).evs =
           pfx ++ [Ev.wr Reg.SPICR c, Ev.wr Reg.SRR 0x0A,
                   Ev.wr Reg.SPISSR 0xFFFFFFFF, Ev.wr Reg.SPICR c] ∧
         c.testBit 8 = true) ∧
    (∀ (env : SpiEnv) (n fuel : Nat) (st : SpiSt), st.txCnt < n →
       (∀ q, st.pollIdx ≤ q → env.status q &&& 1 = 1) →
       (spiLoop env n (fuel+1) st).1 = false ∧
       ∃ pfx c, (spiLoop env n (fuel+1) st).2.2 =
           pfx ++ [Ev.wr Reg.SPICR c, Ev.wr Reg.SRR 0x0A,
                   Ev.wr Reg.SPISSR 0xFFFFFFFF, Ev.wr Reg.SPICR c] ∧
         c.testBit 8 = true) := by
  have hloop : ∀ (env : SpiEnv) (n fuel : Nat) (st : SpiSt), st.txCnt < n →
      (∀ q, st.pollIdx ≤ q → env.status q &&& 1 = 1) →
      (spiLoop env n (fuel+1) st).1 = false ∧
      ∃ pfx c, (spiLoop env n (fuel+1) st).2.2 =
          pfx ++ [Ev.wr Reg.SPICR c, Ev.wr Reg.SRR 0x0A,
                  Ev.wr Reg.SPISSR 0xFFFFFFFF, Ev.wr Reg.SPICR c] ∧
        c.testBit 8 = true := by
    intro env n fuel st htx Hbusy
    have hbad : (spiPoll env st.pollIdx st.tmo).2.2 = false :=
      spiPoll_allbusy env st.tmo st.pollIdx Hbusy
    rw [spiLoop_step_err env n fuel st htx hbad]
    exact ⟨rfl, Ev.pollStart st.tmo :: (spiPoll env st.pollIdx st.tmo).1,
      setMTI st.cfg, rfl, setMTI_testBit _⟩
  refine ⟨?_, hloop⟩
  intro env cfg sid data n hn Hbusy
  obtain ⟨m, rfl⟩ : ∃ m, n = m + 1 := ⟨n - 1, by omega⟩
  have hfalse : (spiLoop env (m+1) (m+1) (spiSt0 cfg data)).1 = false :=
    (hloop env (m+1) m (spiSt0 cfg data) (by simp [spiSt0])
      (fun q _ => Hbusy q)).1
  obtain ⟨pfx, c, hp, hc⟩ := spiLoop_false_suffix env (m+1) (m+1) (spiSt0 cfg data) hfalse
  constructor
  · simp [SPI_Write, hfalse]
  · refine ⟨Ev.wr Reg.SPICR cfg :: Ev.wr Reg.SPISSR 0xFFFFFFFE ::
      Ev.wr Reg.SPIDTR (data.getD 0 0) :: Ev.wr Reg.SPICR (clearMTI cfg) :: pfx,
      c, ?_, hc⟩
    have hevs : (SPI_Write env cfg sid data (m+1)).evs =
        [Ev.wr Reg.SPICR cfg, Ev.wr Reg.SPISSR 0xFFFFFFFE,
         Ev.wr Reg.SPIDTR (data.getD 0 0), Ev.wr Reg.SPICR (clearMTI cfg)] ++
        (spiLoop env (m+1) (m+1) (spiSt0 cfg data)).2.2 := by
      simp [SPI_Write, hfalse]
    rw [hevs, hp]
    simp only [List.cons_append, List.nil_append]

/-- Witness for spi_write_timeout (first conjunct): a 1-byte transfer
against a peripheral that always reports busy. -/
theorem spi_write_timeout_witness :
    (SPI_Write spiEnvStall 0x1E6 0 [5] 1).ret = -1 ∧
    ∃ pfx c, (SPI_Write spiEnvStall 0x1E6 0 [5] 1).evs =
        pfx ++ [Ev.wr Reg.SPICR c, Ev.wr Reg.SRR 0x0A,
                Ev.wr Reg.SPISSR 0xFFFFFFFF, Ev.wr Reg.SPICR c] ∧
      c.testBit 8 = true :=
  spi_write_timeout.1 spiEnvStall 0x1E6 0 [5] 1 (by decide)
    (fun p => by simp only [spiEnvStall]; decide)

/-- Claim C3: if the I2C status register never reports receive data
available (SR bit 6 never clears) the per-byte poll of I2C_Read exhausts
its 0xFFFFFF budget and the call performs the recovery sequence (disable
core, set RX FIFO depth to maximum, soft-reset, re-enable) and returns the
bytes received so far, strictly fewer than bytesNumber.  First conjunct: a
full run against a slave that stalls from the start returns 0 < n with the
recovery writes last.  Second conjunct: from any loop state with k bytes
received whose current poll can never see data, the loop stops with
rxCnt = k and the recovery suffix.  Third conjunct: every run performs at
most n * (0xFFFFFF + 1) status reads, so the call never blocks beyond the
per-byte ceiling. -/
theorem i2c_read_stall :
    (∀ (env : I2cEnv) (sa : Nat) (buf : List Nat) (n stop : Nat), 1 ≤ n →
       (∀ p, env.sr p &&& 0x40 ≠ 0) →
       (I2C_Read env sa buf n stop).ret = 0 ∧
       (I2C_Read env sa buf n stop).ret < n ∧
       ∃ pfx, (I2C_Read env sa buf n stop).evs =
           pfx ++ [Ev.wr Reg.CR 0x00, Ev.wr Reg.RX_FIFO_PIRQ 0x0F,
                   Ev.wr Reg.CR 0x02, Ev.wr Reg.CR 0x01]) ∧
    (∀ (env : I2cEnv) (n fuel : Nat) (st : I2cSt), st.rxCnt < n →
       (∀ q, st.pollIdx ≤ q → env.sr q &&& 0x40 ≠ 0) →
       (i2cLoop env n (fuel+1) st).1 = false ∧
       (i2cLoop env n (fuel+1) st).2.1.rxCnt = st.rxCnt ∧
       ∃ pfx, (i2cLoop env n (fuel+1) st).2.2 =
           pfx ++ [Ev.wr Reg.CR 0x00, Ev.wr Reg.RX_FIFO_PIRQ 0x0F,
                   Ev.wr Reg.CR 0x02, Ev.wr Reg.CR 0x01]) ∧
    (∀ (env : I2cEnv) (sa : Nat) (buf : List Nat) (n stop : Nat),
       srRdCount (I2C_Read env sa buf n stop).evs ≤ n * (0xFFFFFF + 1)) := by
  have hloop : ∀ (env : I2cEnv) (n fuel : Nat) (st : I2cSt), st.rxCnt < n →
      (∀ q, st.pollIdx ≤ q → env.sr q &&& 0x40 ≠ 0) →
      (i2cLoop env n (fuel+1) st).1 = false ∧
      (i2cLoop env n (fuel+1) st).2.1.rxCnt = st.rxCnt ∧
      ∃ pfx, (i2cLoop env n (fuel+1) st).2.2 =
          pfx ++ [Ev.wr Reg.CR 0x00, Ev.wr Reg.RX_FIFO_PIRQ 0x0F,
                  Ev.wr Reg.CR 0x02, Ev.wr Reg.CR 0x01] := by
    intro env n fuel st hrx Hstall
    have hbad : (i2cPoll env st.pollIdx st.tmo).2.2 = false :=
      i2cPoll_allempty env st.tmo st.pollIdx Hstall
    rw [i2cLoop_step_err env n fuel st hrx hbad]
    exact ⟨rfl, rfl,
      ⟨Ev.pollStart st.tmo :: (i2cPoll env st.pollIdx st.tmo).1, rfl⟩⟩
  refine ⟨?_, hloop, ?_⟩
  · intro env sa buf n stop hn Hstall
    obtain ⟨m, rfl⟩ : ∃ m, n = m + 1 := ⟨n - 1, by omega⟩
    obtain ⟨hfalse, hcnt, pfx, hp⟩ :=
      hloop env (m+1) m (i2cSt0 buf) (by simp [i2cSt0]) (fun q _ => Hstall q)
    have hret : (I2C_Read env sa buf (m+1) stop).ret = 0 := by
      have : (i2cLoop env (m+1) (m+1) (i2cSt0 buf)).2.1.rxCnt = 0 := by
        rw [hcnt]
        simp [i2cSt0]
      simp [I2C_Read, hfalse, this]
    refine ⟨hret, by omega, ?_⟩
    refine ⟨Ev.wr Reg.CR 0x002 :: Ev.wr Reg.CR 0x001 :: Ev.delayMs 10 ::
      Ev.wr Reg.TX_FIFO (0x101 ||| (sa <<< 1)) ::
      Ev.wr Reg.TX_FIFO (0x200 + (m+1)) :: pfx, ?_⟩
    have hevs : (I2C_Read env sa buf (m+1) stop).evs =
        [Ev.wr Reg.CR 0x002, Ev.wr Reg.CR 0x001, Ev.delayMs 10,
         Ev.wr Reg.TX_FIFO (0x101 ||| (sa <<< 1)),
         Ev.wr Reg.TX_FIFO (0x200 + (m+1))] ++
        (i2cLoop env (m+1) (m+1) (i2cSt0 buf)).2.2 := by
      simp [I2C_Read, hfalse]
    rw [hevs, hp]
    simp only [List.cons_append, List.nil_append]
  · intro env sa buf n stop
    have hbound := i2cLoop_srBound env n n (i2cSt0 buf) (by simp [i2cSt0])
    by_cases hok : (i2cLoop env n n (i2cSt0 buf)).1 = true
    · have hevs : (I2C_Read env sa buf n stop).evs =
          ([Ev.wr Reg.CR 0x002, Ev.wr Reg.CR 0x001, Ev.delayMs 10,
            Ev.wr Reg.TX_FIFO (0x101 ||| (sa <<< 1)),
            Ev.wr Reg.TX_FIFO (0x200 + n)] ++
           (i2cLoop env n n (i2cSt0 buf)).2.2) ++ [Ev.delayMs 10] := by
        simp [I2C_Read, hok]
      rw [hevs, srRdCount_append, srRdCount_append]
      have h0 : srRdCount [Ev.wr Reg.CR 0x002, Ev.wr Reg.CR 0x001, Ev.delayMs 10,
          Ev.wr Reg.TX_FIFO (0x101 ||| (sa <<< 1)),
          Ev.wr Reg.TX_FIFO (0x200 + n)] = 0 := by simp [srRdCount]
      have h1 : srRdCount [Ev.delayMs 10] = 0 := by simp [srRdCount]
      omega
    · have hevs : (I2C_Read env sa buf n stop).evs =
          [Ev.wr Reg.CR 0x002, Ev.wr Reg.CR 0x001, Ev.delayMs 10,
           Ev.wr Reg.TX_FIFO (0x101 ||| (sa <<< 1)),
           Ev.wr Reg.TX_FIFO (0x200 + n)] ++
          (i2cLoop env n n (i2cSt0 buf)).2.2 := by
        simp [I2C_Read, hok]
      rw [hevs, srRdCount_append]
      have h0 : srRdCount [Ev.wr Reg.CR 0x002, Ev.wr Reg.CR 0x001, Ev.delayMs 10,
          Ev.wr Reg.TX_FIFO (0x101 ||| (sa <<< 1)),
          Ev.wr Reg.TX_FIFO (0x200 + n)] = 0 := by simp [srRdCount]
      omega

/-- Witness for i2c_read_stall (first conjunct): a 1-byte read from a slave
whose receive FIFO never fills. -/
theorem i2c_read_stall_witness :
    (I2C_Read i2cEnvStall 0x48 [0] 1 1).ret = 0 ∧
    (I2C_Read i2cEnvStall 0x48 [0] 1 1).ret < 1 ∧
    ∃ pfx, (I2C_Read i2cEnvStall 0x48 [0] 1 1).evs =
        pfx ++ [Ev.wr Reg.CR 0x00, Ev.wr Reg.RX_FIFO_PIRQ 0x0F,
                Ev.wr Reg.CR 0x02, Ev.wr Reg.CR 0x01] :=
  i2c_read_stall.1 i2cEnvStall 0x48 [0] 1 1 (by decide)
    (fun p => by simp only [i2cEnvStall]; decide)

/-- Claim C6: every per-byte wait starts with the timeout counter at its
fixed ceiling: in every SPI_Write run each poll-entry marker records 0xFFFF
and in every I2C_Read run each poll-entry marker records 0xFFFFFF — the
counter is never carried over from a previous byte. -/
theorem poll_ceiling_reset :
    (∀ (env : SpiEnv) (cfg sid : Nat) (data : List Nat) (n v : Nat),
       Ev.pollStart v ∈ (SPI_Write env cfg sid data n).evs → v = 0xFFFF) ∧
    (∀ (env : I2cEnv) (sa : Nat) (buf : List Nat) (n stop v : Nat),
       Ev.pollStart v ∈ (I2C_Read env sa buf n stop).evs → v = 0xFFFFFF) := by
  constructor
  · intro env cfg sid data n v hmem
    have hloop := spiLoop_pollStart env n n (spiSt0 cfg data) rfl v
    by_cases hok : (spiLoop env n n (spiSt0 cfg data)).1 = true
    · have hevs : (SPI_Write env cfg sid data n).evs =
          ([Ev.wr Reg.SPICR cfg, Ev.wr Reg.SPISSR 0xFFFFFFFE,
            Ev.wr Reg.SPIDTR (data.getD 0 0), Ev.wr Reg.SPICR (clearMTI cfg)] ++
           (spiLoop env n n (spiSt0 cfg data)).2.2) ++
          [Ev.wr Reg.SPICR (setMTI (spiLoop env n n (spiSt0 cfg data)).2.1.cfg),
           Ev.wr Reg.SPISSR 0xFFFFFFFF] := by
        simp [SPI_Write, hok]
      rw [hevs] at hmem
      simp at hmem
      exact hloop hmem
    · have hevs : (SPI_Write env cfg sid data n).evs =
          [Ev.wr Reg.SPICR cfg, Ev.wr Reg.SPISSR 0xFFFFFFFE,
           Ev.wr Reg.SPIDTR (data.getD 0 0), Ev.wr Reg.SPICR (clearMTI cfg)] ++
          (spiLoop env n n (spiSt0 cfg data)).2.2 := by
        simp [SPI_Write, hok]
      rw [hevs] at hmem
      simp at hmem
      exact hloop hmem
  · intro env sa buf n stop v hmem
    have hloop := i2cLoop_pollStart env n n (i2cSt0 buf) rfl v
    by_cases hok : (i2cLoop env n n (i2cSt0 buf)).1 = true
    · have hevs : (I2C_Read env sa buf n stop).evs =
          ([Ev.wr Reg.CR 0x002, Ev.wr Reg.CR 0x001, Ev.delayMs 10,
            Ev.wr Reg.TX_FIFO (0x101 ||| (sa <<< 1)),
            Ev.wr Reg.TX_FIFO (0x200 + n)] ++
           (i2cLoop env n n (i2cSt0 buf)).2.2) ++ [Ev.delayMs 10] := by
        simp [I2C_Read, hok]
      rw [hevs] at hmem
      simp at hmem
      exact hloop hmem
    · have hevs : (I2C_Read env sa buf n stop).evs =
          [Ev.wr Reg.CR 0x002, Ev.wr Reg.CR 0x001, Ev.delayMs 10,
           Ev.wr Reg.TX_FIFO (0x101 ||| (sa <<< 1)),
           Ev.wr Reg.TX_FIFO (0x200 + n)] ++
          (i2cLoop env n n (i2cSt0 buf)).2.2 := by
        simp [I2C_Read, hok]
      rw [hevs] at hmem
      simp at hmem
      exact hloop hmem

/-- Witness for poll_ceiling_reset: the 1-byte SPI_Write run against the
always-ready peripheral contains a poll-entry marker, and the theorem
applies to it. -/
theorem poll_ceiling_reset_witness :
    Ev.pollStart 0xFFFF ∈ (SPI_Write spiEnvReady 0x1E6 0 [5] 1).evs ∧
    (0xFFFF : Nat) = 0xFFFF :=
  ⟨by decide, poll_ceiling_reset.1 spiEnvReady 0x1E6 0 [5] 1 0xFFFF (by decide)⟩

end NoOS
